import Mathlib

/-!
Shallow embedding of the schema-pipeline script
(`.github/scripts/config.js` of swellstores/swell-claude-plugins).

The script is an orchestrator over external effects: environment variables,
a git diff query, the local filesystem, the Anthropic text-generation API,
prettier, the @hyperjump JSON-schema bundler, and R2 object storage.  We
model every external collaborator as an oracle field of a `World` record and
give each function of the script an executable Lean counterpart returning
the list of observable events it performs together with an
`Except String _` result mirroring the JavaScript exception flow
(`process.exit(1)` and uncaught throws both surface as exit code 1 in
`mainRun`).  String scanning (trim, split, substring search, the
`<result>` regex) is implemented structurally over `List Char` so that
every definition evaluates by kernel reduction.
-/

/-! ### Character-list string primitives -/

/-- Split a character list on a separator character (JavaScript
`String.prototype.split` with a one-character separator). -/
def splitOnChar (sep : Char) : List Char → List (List Char)
  | [] => [[]]
  | c :: cs =>
    let r := splitOnChar sep cs
    if c == sep then [] :: r
    else
      match r with
      | [] => [[c]]
      | h :: t => (c :: h) :: t

/-- Remove leading and trailing whitespace (JavaScript `trim`). -/
def trimChars (cs : List Char) : List Char :=
  ((cs.dropWhile Char.isWhitespace).reverse.dropWhile Char.isWhitespace).reverse

/-- Index of the first occurrence of `pat` in a character list
(JavaScript `indexOf` / the left-most regex match start). -/
def listFind (pat : List Char) : List Char → Option Nat
  | [] => if pat.isEmpty then some 0 else none
  | c :: cs =>
    if pat.isPrefixOf (c :: cs) then some 0
    else (listFind pat cs).map (· + 1)

def strTrim (s : String) : String := String.mk (trimChars s.data)

def splitLines (s : String) : List String :=
  (splitOnChar '\n' s.data).map String.mk

def splitSlash (s : String) : List String :=
  (splitOnChar '/' s.data).map String.mk

/-- JavaScript `String.prototype.endsWith`. -/
def strEndsWith (s suffix : String) : Bool := suffix.data.isSuffixOf s.data

/-- JavaScript `String.prototype.includes`. -/
def strContains (s pat : String) : Bool := (listFind pat.data s.data).isSome

/-- JavaScript `String.prototype.replace` with a plain-string pattern:
only the first occurrence is replaced. -/
def replaceFirst (s pat repl : String) : String :=
  match listFind pat.data s.data with
  | none => s
  | some i =>
      String.mk (s.data.take i ++ repl.data ++ s.data.drop (i + pat.data.length))

def joinWith (sep : String) : List String → String
  | [] => ""
  | [x] => x
  | x :: y :: xs => x ++ sep ++ joinWith sep (y :: xs)

/-- Models `path.dirname` for the forward-slash relative paths the script uses. -/
def dirname (p : String) : String :=
  let parts := splitSlash p
  if parts.length ≤ 1 then "." else joinWith "/" parts.dropLast

/-- Models `config.input.split("/").pop()`. -/
def lastComponent (p : String) : String := (splitSlash p).getLastD ""

/-- Models `path.join` for the simple two-segment joins the script performs. -/
def pathJoin (a b : String) : String := a ++ "/" ++ b

/-! ### Data model -/

/-- One entry of the static `SCHEMAS` registry (`r2Keys` nested object). -/
structure R2Keys where
  bundled : String
  types : String
deriving DecidableEq

structure SchemaConfig where
  input : String
  output : String
  promptFile : String
  r2Keys : R2Keys
deriving DecidableEq

/-- The static `SCHEMAS` table of `config.js`, verbatim. -/
def SCHEMAS : List SchemaConfig :=
  [ { input := "schema/model.json",
      output := "types/model.d.ts",
      promptFile := ".github/scripts/prompts/model.prompt.txt",
      r2Keys := { bundled := "schema-bundle/model.bundled.json",
                  types := "types/model.d.ts" } },
    { input := "schema/content.json",
      output := "types/content.d.ts",
      promptFile := ".github/scripts/prompts/content.prompt.txt",
      r2Keys := { bundled := "schema-bundle/content.bundled.json",
                  types := "types/content.d.ts" } },
    { input := "schema/notification.json",
      output := "types/notification.d.ts",
      promptFile := ".github/scripts/prompts/notification.prompt.txt",
      r2Keys := { bundled := "schema-bundle/notification.bundled.json",
                  types := "types/notification.d.ts" } },
    { input := "schema/setting.json",
      output := "types/setting.d.ts",
      promptFile := ".github/scripts/prompts/setting.prompt.txt",
      r2Keys := { bundled := "schema-bundle/setting.bundled.json",
                  types := "types/setting.d.ts" } },
    { input := "schema/webhook.json",
      output := "types/webhook.d.ts",
      promptFile := ".github/scripts/prompts/webhook.prompt.txt",
      r2Keys := { bundled := "schema-bundle/webhook.bundled.json",
                  types := "types/webhook.d.ts" } } ]

/-- One content block of an Anthropic messages response
(`block.type`, `block.text`). -/
structure ContentBlock where
  type : String
  text : String
deriving DecidableEq

/-- A parsed JSON schema document, as far as the script inspects it:
its optional `$id` and an opaque remainder.  `JSON.parse` is an oracle
of the `World` producing such a document or a parse error. -/
structure SchemaDoc where
  id : Option String
  body : String
deriving DecidableEq

/-- JavaScript truthiness of the `$id` value the script tests with
`if (schema.$id)` / `if (!schemaId)`: present and a non-empty string. -/
def idTruthy : Option String → Bool
  | none => false
  | some s => !(s == "")

/-- JavaScript truthiness of `process.env[v]` as tested by
`validateEnv`: set and non-empty. -/
def envTruthy : Option String → Bool
  | none => false
  | some s => !(s == "")

/-! ### Observable events and the world of oracles -/

/-- The externally observable actions of one run, in order. -/
inductive Event where
  | gitQuery : Event
  | json2tsRun (dir file : String) : Event
  | claudeCall (prompt : String) : Event
  | writeFile (path content : String) : Event
  | r2Put (key content contentType : String) : Event
  | bundleResolve (id : String) : Event
  | consoleError (msg : String) : Event
deriving DecidableEq

def Event.isPut : Event → Bool
  | .r2Put _ _ _ => true
  | _ => false

/-- The external collaborators of one run.  Each oracle is deterministic
within the run; fallible ones return `Except String` mirroring a thrown
JavaScript exception. -/
structure World where
  env : String → Option String
  gitDiff : Except String String
  readDir : String → List String
  readFile : String → Except String String
  parseJson : String → Except String SchemaDoc
  json2ts : String → String → Except String String
  claude : String → Except String (List ContentBlock)
  prettierFmt : String → Except String String
  bundleRes : String → List SchemaDoc → Except String String
  r2Send : String → String → String → Except String Unit

/-! ### The script, function by function -/

/-- The filter applied to the `git diff` output lines:
`(f) => f && f.endsWith(".json") && !f.includes("bundle")`. -/
def changedFileKeep (f : String) : Bool :=
  !(f == "") && strEndsWith f ".json" && !strContains f "bundle"

/-- The filter applied to `readdirSync` listings (raw upload and sibling
registration): `(file) => file.endsWith(".json") && !file.includes("bundle")`. -/
def schemaFileKeep (f : String) : Bool :=
  strEndsWith f ".json" && !strContains f "bundle"

/-- Models `detectChangedSchemas`, as a pure function of the text the
`git diff --name-only HEAD^ HEAD -- schema/` invocation printed (the
invocation itself is the `Event.gitQuery` emitted by `mainRun`). -/
def detectChangedSchemas (gitOut : String) : List SchemaConfig :=
  let changedFiles := (splitLines (strTrim gitOut)).filter changedFileKeep
  SCHEMAS.filter (fun schema => changedFiles.contains schema.input)

/-- Models `uploadToR2`: one `PutObjectCommand` send; the put is attempted (and so
observed) whether or not the transport succeeds. -/
def uploadToR2 (w : World) (key content contentType : String) :
    List Event × Except String Unit :=
  ([Event.r2Put key content contentType], w.r2Send key content contentType)

/-- The body of the `for (const file of files)` loop of `uploadRawSchemas`:
read each file and put it at the bucket root under its bare file name;
the first thrown error aborts the loop. -/
def uploadRawList (w : World) : List String → List Event × Except String Unit
  | [] => ([], Except.ok ())
  | file :: rest =>
    match w.readFile (pathJoin "schema" file) with
    | Except.error e => ([], Except.error e)
    | Except.ok content =>
      match w.r2Send file content "application/json" with
      | Except.error e => ([Event.r2Put file content "application/json"], Except.error e)
      | Except.ok _ =>
        let (t, r) := uploadRawList w rest
        (Event.r2Put file content "application/json" :: t, r)

/-- Models `uploadRawSchemas`: enumerate the `schema` directory on disk, keep the
non-bundle `.json` files, upload every one. -/
def uploadRawSchemas (w : World) : List Event × Except String Unit :=
  let files := (w.readDir "schema").filter schemaFileKeep
  uploadRawList w files

/-- The loop body of `registerAllSchemas` over a given file listing: read,
parse, and register each document that declares a truthy `$id`; any file
whose read or parse throws is skipped by the empty `catch`. -/
def registerList (w : World) (dir : String) (files : List String) : List SchemaDoc :=
  files.filterMap (fun file =>
    match w.readFile (pathJoin dir file) with
    | Except.error _ => none
    | Except.ok content =>
      match w.parseJson content with
      | Except.error _ => none
      | Except.ok schema => if idTruthy schema.id then some schema else none)

/-- Models `registerAllSchemas`: register every non-bundle `.json` sibling of
`schemaPath` that parses and has a `$id`.  The resulting list models the
global registry the bundler resolves against. -/
def registerAllSchemas (w : World) (schemaPath : String) : List SchemaDoc :=
  let schemaDir := dirname schemaPath
  registerList w schemaDir ((w.readDir schemaDir).filter schemaFileKeep)

/-- The `$id`-missing error message of `bundleSchema`. -/
def missingIdMsg (schemaPath : String) : String :=
  "Schema at " ++ schemaPath ++ " must have an $id property"

/-- Models `bundleSchema`: register the siblings, read and parse the target,
require a truthy `$id`, then run the bundling resolution (the
`bundle(schemaId)` call together with its `JSON.stringify`, modelled by
the `bundleRes` oracle over the registry). -/
def bundleSchema (w : World) (schemaPath : String) :
    List Event × Except String String :=
  let registry := registerAllSchemas w schemaPath
  match w.readFile schemaPath with
  | Except.error e => ([], Except.error e)
  | Except.ok content =>
    match w.parseJson content with
    | Except.error e => ([], Except.error e)
    | Except.ok mainSchema =>
      if idTruthy mainSchema.id then
        match mainSchema.id with
        | some schemaId =>
          ([Event.bundleResolve schemaId], w.bundleRes schemaId registry)
        | none => ([], Except.error (missingIdMsg schemaPath))
      else ([], Except.error (missingIdMsg schemaPath))

/-- First content block of text kind:
`msg.content.find((block) => block.type === "text")?.text || ""`. -/
def firstTextBlock (blocks : List ContentBlock) : String :=
  match blocks.find? (fun b => b.type == "text") with
  | some b => b.text
  | none => ""

def resultOpenTag : List Char := "<result>".data

def resultCloseTag : List Char := "</result>".data

/-- The `/<result>([\s\S]*?)<\/result>/` scan over a character list:
left-most `<result>`, then the capture up to the first following
`</result>`. -/
def extractResultL (cs : List Char) : Option (List Char) :=
  match listFind resultOpenTag cs with
  | none => none
  | some i =>
    let rest := cs.drop (i + resultOpenTag.length)
    match listFind resultCloseTag rest with
    | none => none
    | some j => some (rest.take j)

def extractResult (s : String) : Option String :=
  (extractResultL s.data).map String.mk

/-- The extraction-failure message (the possessive of the source text is
rendered without its apostrophe). -/
def extractFailMsg : String := "Failed to extract result from Claude response"

/-- Models `promptTemplate.replace("<d.ts></d.ts>", `<d.ts>\n${ts}\n</d.ts>`)`. -/
def composePrompt (tmpl ts : String) : String :=
  replaceFirst tmpl "<d.ts></d.ts>" ("<d.ts>\n" ++ ts ++ "\n</d.ts>")

/-- Models `generateTypes`: json2ts draft, prompt composition, the Anthropic call,
`<result>` extraction (hard failure when absent), trim, prettier. -/
def generateTypes (w : World) (config : SchemaConfig) :
    List Event × Except String String :=
  let schemaDir := dirname config.input
  let schemaFileName := lastComponent config.input
  match w.json2ts schemaDir schemaFileName with
  | Except.error e => ([Event.json2tsRun schemaDir schemaFileName], Except.error e)
  | Except.ok typescriptContent =>
    match w.readFile config.promptFile with
    | Except.error e => ([Event.json2tsRun schemaDir schemaFileName], Except.error e)
    | Except.ok promptTemplate =>
      let prompt := composePrompt promptTemplate typescriptContent
      match w.claude prompt with
      | Except.error e =>
        ([Event.json2tsRun schemaDir schemaFileName, Event.claudeCall prompt],
         Except.error e)
      | Except.ok blocks =>
        let responseText := firstTextBlock blocks
        match extractResult responseText with
        | none =>
          ([Event.json2tsRun schemaDir schemaFileName, Event.claudeCall prompt],
           Except.error extractFailMsg)
        | some captured =>
          match w.prettierFmt (strTrim captured) with
          | Except.error e =>
            ([Event.json2tsRun schemaDir schemaFileName, Event.claudeCall prompt],
             Except.error e)
          | Except.ok processedContent =>
            ([Event.json2tsRun schemaDir schemaFileName, Event.claudeCall prompt],
             Except.ok processedContent)

/-- Models `processSchema`: generate the declaration, write it to the local output
path, bundle the input, upload the bundle to the bundled key. -/
def processSchema (w : World) (config : SchemaConfig) :
    List Event × Except String Unit :=
  match generateTypes w config with
  | (t, Except.error e) => (t, Except.error e)
  | (t, Except.ok typesContent) =>
    let t1 := t ++ [Event.writeFile config.output typesContent]
    match bundleSchema w config.input with
    | (tb, Except.error e) => (t1 ++ tb, Except.error e)
    | (tb, Except.ok bundledSchema) =>
      let (tu, r) :=
        uploadToR2 w config.r2Keys.bundled bundledSchema "application/json"
      (t1 ++ tb ++ tu, r)

def requiredEnvVars : List String :=
  ["ANTHROPIC_API_KEY", "R2_ACCOUNT_ID", "R2_ACCESS_KEY_ID",
   "R2_SECRET_ACCESS_KEY", "R2_BUCKET_NAME"]

/-- Models `validateEnv`: the first required variable whose value is falsy, if
any; `some v` makes the process exit 1 before anything else runs. -/
def validateEnv (env : String → Option String) : Option String :=
  requiredEnvVars.find? (fun v => !envTruthy (env v))

/-- The `console.error` line of the catch block in `main`. -/
def failMsg (input e : String) : String :=
  "Failed to process " ++ input ++ ": " ++ e

/-- The `for (const schema of changedSchemas)` loop of `main` with its
try/catch: the first failing schema is logged with its input path and the
process exits 1; later schemas are not reached. -/
def processLoop (w : World) : List SchemaConfig → List Event × Option String
  | [] => ([], none)
  | config :: rest =>
    match processSchema w config with
    | (t, Except.error e) =>
      (t ++ [Event.consoleError (failMsg config.input e)], some config.input)
    | (t, Except.ok _) =>
      let (t2, r) := processLoop w rest
      (t ++ t2, r)

/-- Models `main`: validate the environment, run the git query, short-circuit on
an empty change set, upload the raw schemas, process each changed schema.
Result: (process exit code, ordered event trace).  An uncaught throw
(git, raw upload) exits 1, as the unhandled rejection of the `main()`
promise does in Node. -/
def mainRun (w : World) : Nat × List Event :=
  match validateEnv w.env with
  | some _ => (1, [])
  | none =>
    match w.gitDiff with
    | Except.error _ => (1, [Event.gitQuery])
    | Except.ok gitOut =>
      let changedSchemas := detectChangedSchemas gitOut
      if changedSchemas.isEmpty then (0, [Event.gitQuery])
      else
        match uploadRawSchemas w with
        | (t, Except.error _) => (1, Event.gitQuery :: t)
        | (t, Except.ok _) =>
          match processLoop w changedSchemas with
          | (t2, some _) => (1, Event.gitQuery :: (t ++ t2))
          | (t2, none) => (0, Event.gitQuery :: (t ++ t2))

/-- The concatenated traces of a list of successfully processed schemas. -/
def okTraces (w : World) (l : List SchemaConfig) : List Event :=
  l.flatMap (fun c => (processSchema w c).1)

/-! ### Claim C1: empty change set publishes nothing and exits 0 -/

/-- C1.  In every run whose filtered changed-file set is empty, the process
exits 0 and the only observable action is the git query: in particular the
Publisher receives zero calls (no raw put, no bundled put). -/
theorem empty_changes_no_publish (w : World) (gitOut : String)
    (hEnv : validateEnv w.env = none)
    (hGit : w.gitDiff = Except.ok gitOut)
    (hEmpty : (splitLines (strTrim gitOut)).filter changedFileKeep = []) :
    mainRun w = (0, [Event.gitQuery]) ∧
      ∀ e ∈ (mainRun w).2, e.isPut = false := by
  have hdet : detectChangedSchemas gitOut = [] := by
    simp only [detectChangedSchemas]
    rw [hEmpty]
    rfl
  have hmain : mainRun w = (0, [Event.gitQuery]) := by
    simp only [mainRun, hEnv, hGit, hdet, List.isEmpty_nil, if_true]
  refine ⟨hmain, ?_⟩
  rw [hmain]
  intro e he
  simp only [List.mem_singleton] at he
  subst he
  rfl

/-- C1 witness: a concrete world with all credentials set and an empty
git diff. -/
def W1 : World where
  env := fun _ => some "x"
  gitDiff := Except.ok ""
  readDir := fun _ => []
  readFile := fun _ => Except.error "ENOENT"
  parseJson := fun _ => Except.error "bad json"
  json2ts := fun _ _ => Except.error "json2ts failed"
  claude := fun _ => Except.error "api error"
  prettierFmt := fun _ => Except.error "parse error"
  bundleRes := fun _ _ => Except.error "unresolved"
  r2Send := fun _ _ _ => Except.ok ()

theorem empty_changes_no_publish_witness :
    mainRun W1 = (0, [Event.gitQuery]) ∧
      ∀ e ∈ (mainRun W1).2, e.isPut = false :=
  empty_changes_no_publish W1 "" (by decide) rfl (by decide)

/-! ### Claim C2: environment validation runs strictly first -/

/-- C2.  If any of the five required environment values is absent (or
empty, which JavaScript also treats as falsy), the process exits 1 with an
empty event trace: the version-control query and every network call
are never invoked, so validation strictly precedes change detection. -/
theorem missing_env_blocks_run (w : World) (v : String)
    (hv : v ∈ requiredEnvVars)
    (hMissing : envTruthy (w.env v) = false) :
    mainRun w = (1, []) := by
  cases h : validateEnv w.env with
  | none =>
    exfalso
    simp only [validateEnv] at h
    have := List.find?_eq_none.mp h v hv
    simp [hMissing] at this
  | some x => simp only [mainRun, h]

/-- C2 witness: the bucket name is missing, everything else is set. -/
def W2 : World where
  env := fun v => if v == "R2_BUCKET_NAME" then none else some "x"
  gitDiff := Except.ok "schema/model.json"
  readDir := fun _ => ["model.json"]
  readFile := fun _ => Except.ok "doc"
  parseJson := fun _ => Except.error "bad json"
  json2ts := fun _ _ => Except.ok "draft"
  claude := fun _ => Except.error "api error"
  prettierFmt := fun s => Except.ok s
  bundleRes := fun _ _ => Except.error "unresolved"
  r2Send := fun _ _ _ => Except.ok ()

theorem missing_env_blocks_run_witness : mainRun W2 = (1, []) :=
  missing_env_blocks_run W2 "R2_BUCKET_NAME" (by decide) (by decide)

/-! ### Claim C7: the change detector keeps exactly the filtered paths -/

/-- C7.  A registered descriptor is returned by the change detector exactly
when its input path occurs in the split git output and survives the filter:
non-empty, ends in `.json`, does not contain the token `bundle`.  The
detector never fails: an empty result is an ordinary value. -/
theorem detect_changed_membership (gitOut : String) (s : SchemaConfig) :
    s ∈ detectChangedSchemas gitOut ↔
      s ∈ SCHEMAS ∧ s.input ∈ splitLines (strTrim gitOut) ∧
        ¬ s.input = "" ∧ strEndsWith s.input ".json" = true ∧
        strContains s.input "bundle" = false := by
  simp only [detectChangedSchemas, List.mem_filter, List.contains, List.elem_iff,
    changedFileKeep, Bool.and_eq_true, Bool.not_eq_true', beq_eq_false_iff_ne,
    ne_eq]
  tauto

/-! ### Claim C4: a missing `$id` fails bundling before any network call -/

/-- The trace of `generateTypes` never contains a storage put: its only
events are the json2ts run and the text-generation call. -/
theorem generateTypes_no_put (w : World) (c : SchemaConfig) :
    ∀ ev ∈ (generateTypes w c).1, ev.isPut = false := by
  intro ev hev
  unfold generateTypes at hev
  rcases hj : w.json2ts (dirname c.input) (lastComponent c.input) with e | ts <;>
    simp only [hj] at hev
  · simp only [List.mem_singleton] at hev; subst hev; rfl
  rcases hrf : w.readFile c.promptFile with e | tmpl <;> simp only [hrf] at hev
  · simp only [List.mem_singleton] at hev; subst hev; rfl
  rcases hcl : w.claude (composePrompt tmpl ts) with e | blocks <;>
    simp only [hcl] at hev
  · simp only [List.mem_cons, List.mem_singleton, List.not_mem_nil,
      or_false] at hev
    rcases hev with rfl | rfl <;> rfl
  rcases hex : extractResult (firstTextBlock blocks) with _ | cap <;>
    simp only [hex] at hev
  · simp only [List.mem_cons, List.mem_singleton, List.not_mem_nil,
      or_false] at hev
    rcases hev with rfl | rfl <;> rfl
  rcases hpf : w.prettierFmt (strTrim cap) with e | out <;>
    simp only [hpf] at hev <;>
    · simp only [List.mem_cons, List.mem_singleton, List.not_mem_nil,
        or_false] at hev
      rcases hev with rfl | rfl <;> rfl

/-- C4.  A target schema document whose `$id` is absent (or empty, the
other falsy case) makes `bundleSchema` fail with the configuration error
and an empty event trace — the bundling resolution and the storage put are
never attempted — and the per-schema processing of such a schema performs
no storage put at all. -/
theorem missing_id_fails_before_network (w : World) (schemaPath content : String)
    (doc : SchemaDoc)
    (hRead : w.readFile schemaPath = Except.ok content)
    (hParse : w.parseJson content = Except.ok doc)
    (hNoId : idTruthy doc.id = false) :
    bundleSchema w schemaPath = ([], Except.error (missingIdMsg schemaPath)) ∧
      ∀ (config : SchemaConfig), config.input = schemaPath →
        ∀ k c ct, Event.r2Put k c ct ∉ (processSchema w config).1 := by
  have hb : bundleSchema w schemaPath = ([], Except.error (missingIdMsg schemaPath)) := by
    simp only [bundleSchema, hRead, hParse, hNoId, Bool.false_eq_true, if_false]
  refine ⟨hb, ?_⟩
  intro config hc k c ct hmem
  cases hgen : generateTypes w config with
  | mk tg res =>
    cases res with
    | error e =>
      simp only [processSchema, hgen] at hmem
      have hmem' : Event.r2Put k c ct ∈ (generateTypes w config).1 := by
        rw [hgen]; exact hmem
      have := generateTypes_no_put w config _ hmem'
      simp [Event.isPut] at this
    | ok types =>
      simp only [processSchema, hgen, hc, hb, List.append_nil] at hmem
      rcases List.mem_append.mp hmem with h | h
      · have hmem' : Event.r2Put k c ct ∈ (generateTypes w config).1 := by
          rw [hgen]; exact h
        have := generateTypes_no_put w config _ hmem'
        simp [Event.isPut] at this
      · simp at h

/-- C4 witness: a parsable target document with no `$id`. -/
def W4 : World where
  env := fun _ => some "x"
  gitDiff := Except.ok "schema/model.json"
  readDir := fun _ => ["model.json"]
  readFile := fun _ => Except.ok "doc"
  parseJson := fun _ => Except.ok { id := none, body := "doc" }
  json2ts := fun _ _ => Except.ok "draft"
  claude := fun _ => Except.error "api error"
  prettierFmt := fun s => Except.ok s
  bundleRes := fun _ _ => Except.ok "doc"
  r2Send := fun _ _ _ => Except.ok ()

theorem missing_id_fails_before_network_witness :
    bundleSchema W4 "schema/model.json" =
      ([], Except.error (missingIdMsg "schema/model.json")) ∧
      ∀ (config : SchemaConfig), config.input = "schema/model.json" →
        ∀ k c ct, Event.r2Put k c ct ∉ (processSchema W4 config).1 :=
  missing_id_fails_before_network W4 "schema/model.json" "doc"
    { id := none, body := "doc" } rfl rfl rfl

/-! ### Claim C6: the raw upload mirrors the whole on-disk directory -/

/-- The raw-upload loop over any file listing: when every read and put
succeeds, it performs exactly one put per file, keyed by the bare file
name, with the schema media type. -/
theorem uploadRawList_ok (w : World) (content : String → String) :
    ∀ files : List String,
      (∀ f ∈ files, w.readFile (pathJoin "schema" f) = Except.ok (content f) ∧
          w.r2Send f (content f) "application/json" = Except.ok ()) →
      uploadRawList w files =
        (files.map (fun f => Event.r2Put f (content f) "application/json"),
         Except.ok ()) := by
  intro files
  induction files with
  | nil => intro _; rfl
  | cons f rest ih =>
    intro h
    have hf := h f (by simp)
    have hrest : ∀ g ∈ rest,
        w.readFile (pathJoin "schema" g) = Except.ok (content g) ∧
          w.r2Send g (content g) "application/json" = Except.ok () :=
      fun g hg => h g (by simp [hg])
    simp only [uploadRawList, hf.1, hf.2, ih hrest, List.map_cons]

/-- C6.  The raw-schema upload enumerates the `schema` directory at run
time and puts every non-bundle `.json` file found there — the full
on-disk set, not the changed subset (the change set is not even an input
of `uploadRawSchemas`) — each at the bucket root under its own file name
with content type `application/json`. -/
theorem raw_upload_publishes_all (w : World) (content : String → String)
    (h : ∀ f ∈ (w.readDir "schema").filter schemaFileKeep,
        w.readFile (pathJoin "schema" f) = Except.ok (content f) ∧
          w.r2Send f (content f) "application/json" = Except.ok ()) :
    uploadRawSchemas w =
      (((w.readDir "schema").filter schemaFileKeep).map
          (fun f => Event.r2Put f (content f) "application/json"),
       Except.ok ()) := by
  simp only [uploadRawSchemas]
  exact uploadRawList_ok w content _ h

/-- C6 witness: a directory holding one schema file, one bundled artifact
and one non-JSON file; only the schema file is published. -/
def W6 : World where
  env := fun _ => some "x"
  gitDiff := Except.ok "schema/model.json"
  readDir := fun _ => ["model.json", "model.bundled.json", "notes.txt"]
  readFile := fun _ => Except.ok "doc"
  parseJson := fun _ => Except.error "bad json"
  json2ts := fun _ _ => Except.ok "draft"
  claude := fun _ => Except.error "api error"
  prettierFmt := fun s => Except.ok s
  bundleRes := fun _ _ => Except.ok "doc"
  r2Send := fun _ _ _ => Except.ok ()

theorem raw_upload_publishes_all_witness :
    uploadRawSchemas W6 =
      ([Event.r2Put "model.json" "doc" "application/json"], Except.ok ()) :=
  raw_upload_publishes_all W6 (fun _ => "doc") (fun _ _ => ⟨rfl, rfl⟩)

/-! ### Claim C8: sibling registration skips malformed documents -/

/-- C8, three parts.
First: a document is registered exactly when some non-bundle `.json`
sibling reads and parses to it and it declares a truthy `$id` — files
whose read or parse throws are skipped silently and register nothing.
Second: a permutation of the directory listing permutes the registry, so
registration order does not affect the registered set.
Third: when the target itself reads, parses and has a non-empty `$id`,
`bundleSchema` proceeds to the resolution step whatever the sibling
files contain — a malformed sibling never aborts bundling of the target. -/
theorem sibling_registration_robust :
    (∀ (w : World) (p : String) (d : SchemaDoc),
        d ∈ registerAllSchemas w p ↔
          ∃ f ∈ (w.readDir (dirname p)).filter schemaFileKeep,
            ∃ c, w.readFile (pathJoin (dirname p) f) = Except.ok c ∧
              w.parseJson c = Except.ok d ∧ idTruthy d.id = true) ∧
      (∀ (w : World) (dir : String) (files files' : List String),
          files.Perm files' →
            (registerList w dir files).Perm (registerList w dir files')) ∧
      (∀ (w : World) (p c : String) (d : SchemaDoc) (i : String),
          w.readFile p = Except.ok c → w.parseJson c = Except.ok d →
          d.id = some i → ¬ i = "" →
          bundleSchema w p =
            ([Event.bundleResolve i], w.bundleRes i (registerAllSchemas w p))) := by
  refine ⟨?_, ?_, ?_⟩
  · intro w p d
    simp only [registerAllSchemas, registerList, List.mem_filterMap]
    constructor
    · rintro ⟨f, hf, hsome⟩
      refine ⟨f, hf, ?_⟩
      cases hr : w.readFile (pathJoin (dirname p) f) with
      | error e =>
        simp only [hr] at hsome
        exact Option.noConfusion hsome
      | ok c =>
        simp only [hr] at hsome
        cases hp : w.parseJson c with
        | error e =>
          simp only [hp] at hsome
          exact Option.noConfusion hsome
        | ok doc =>
          simp only [hp] at hsome
          by_cases hid : idTruthy doc.id = true
          · rw [if_pos hid] at hsome
            cases hsome
            exact ⟨c, rfl, hp, hid⟩
          · rw [if_neg hid] at hsome
            exact Option.noConfusion hsome
    · rintro ⟨f, hf, c, hr, hp, hid⟩
      exact ⟨f, hf, by simp [hr, hp, hid]⟩
  · intro w dir files files' hperm
    simp only [registerList]
    exact hperm.filterMap _
  · intro w p c d i hr hp hid hne
    have hbeq : (i == "") = false := by simp [hne]
    simp only [bundleSchema, hr, hp, hid, idTruthy, hbeq, Bool.not_false, if_true]

/-! ### Claims C5 and C3: the batch loop aborts on the first failure -/

/-- The processing loop over a split list: every schema before the failing
one succeeds, the failing one is logged with its input path, and the
schemas after it are never reached. -/
theorem processLoop_fail (w : World) (config : SchemaConfig) (t : List Event)
    (e : String) :
    ∀ l1 l2 : List SchemaConfig,
      (∀ c ∈ l1, (processSchema w c).2 = Except.ok ()) →
      processSchema w config = (t, Except.error e) →
      processLoop w (l1 ++ config :: l2) =
        (okTraces w l1 ++ (t ++ [Event.consoleError (failMsg config.input e)]),
         some config.input) := by
  intro l1
  induction l1 with
  | nil =>
    intro l2 _ hFail
    simp only [List.nil_append, processLoop, hFail, okTraces, List.flatMap_nil,
      List.append_nil]
  | cons ch rest ih =>
    intro l2 hOk hFail
    obtain ⟨t0, ht0⟩ : ∃ t0, processSchema w ch = (t0, Except.ok ()) :=
      ⟨(processSchema w ch).1, Prod.ext rfl (hOk ch (by simp))⟩
    have hrest : ∀ c ∈ rest, (processSchema w c).2 = Except.ok () :=
      fun c hc => hOk c (by simp [hc])
    simp only [List.cons_append, processLoop, ht0, List.append_eq]
    rw [ih l2 hrest hFail]
    simp [okTraces, List.flatMap_cons, ht0, List.append_assoc]

/-- The orchestrator when the i-th changed schema fails: it exits 1, the
trace ends at the logged error of that schema, and nothing after it runs. -/
theorem mainRun_aborts_at (w : World) (gitOut : String) (config : SchemaConfig)
    (l1 l2 : List SchemaConfig) (tRaw t : List Event) (e : String)
    (hEnv : validateEnv w.env = none)
    (hGit : w.gitDiff = Except.ok gitOut)
    (hChanged : detectChangedSchemas gitOut = l1 ++ config :: l2)
    (hRaw : uploadRawSchemas w = (tRaw, Except.ok ()))
    (hPrefix : ∀ c ∈ l1, (processSchema w c).2 = Except.ok ())
    (hFail : processSchema w config = (t, Except.error e)) :
    mainRun w =
      (1, Event.gitQuery :: (tRaw ++ (okTraces w l1 ++
        (t ++ [Event.consoleError (failMsg config.input e)])))) := by
  have hne : (l1 ++ config :: l2).isEmpty = false := by
    simp [List.isEmpty_eq_false]
  simp only [mainRun, hEnv, hGit, hRaw, hChanged, hne, Bool.false_eq_true,
    if_false, processLoop_fail w config t e l1 l2 hPrefix hFail]

/-- C5.  Any exception inside the processing of changed descriptor
`config` — whatever already-succeeded prefix `l1` and untouched suffix
`l2` surround it — is logged with the input path of `config` and terminates the
run with exit code 1; the trace equation shows the failing schema is not
retried and no descriptor after it is processed. -/
theorem schema_failure_aborts_batch (w : World) (gitOut : String)
    (config : SchemaConfig) (l1 l2 : List SchemaConfig) (tRaw t : List Event)
    (e : String)
    (hEnv : validateEnv w.env = none)
    (hGit : w.gitDiff = Except.ok gitOut)
    (hChanged : detectChangedSchemas gitOut = l1 ++ config :: l2)
    (hRaw : uploadRawSchemas w = (tRaw, Except.ok ()))
    (hPrefix : ∀ c ∈ l1, (processSchema w c).2 = Except.ok ())
    (hFail : processSchema w config = (t, Except.error e)) :
    mainRun w =
      (1, Event.gitQuery :: (tRaw ++ (okTraces w l1 ++
        (t ++ [Event.consoleError (failMsg config.input e)])))) :=
  mainRun_aborts_at w gitOut config l1 l2 tRaw t e hEnv hGit hChanged hRaw
    hPrefix hFail

/-- The first entry of the `SCHEMAS` registry, used by concrete witnesses. -/
def modelConfig : SchemaConfig :=
  { input := "schema/model.json",
    output := "types/model.d.ts",
    promptFile := ".github/scripts/prompts/model.prompt.txt",
    r2Keys := { bundled := "schema-bundle/model.bundled.json",
                types := "types/model.d.ts" } }

theorem schema_failure_aborts_batch_witness :
    mainRun W4 =
      (1, Event.gitQuery ::
        ([Event.r2Put "model.json" "doc" "application/json"] ++
          (okTraces W4 [] ++
            ([Event.json2tsRun "schema" "model.json", Event.claudeCall "doc"] ++
              [Event.consoleError (failMsg "schema/model.json" "api error")])))) :=
  schema_failure_aborts_batch W4 "schema/model.json" modelConfig [] []
    [Event.r2Put "model.json" "doc" "application/json"]
    [Event.json2tsRun "schema" "model.json", Event.claudeCall "doc"]
    "api error" rfl rfl rfl rfl (by simp) rfl

/-- C3.  When the text-generation response has no `<result>` span, the
processing of that schema raises the generation error: the run exits 1,
the error is logged with the input path of the schema, the trace ends there (no
later schema is processed), and the per-schema trace holds no file write —
the undelimited raw response is never accepted and no declaration file is
written for that schema. -/
theorem generation_error_aborts_run (w : World) (gitOut : String)
    (config : SchemaConfig) (l1 l2 : List SchemaConfig) (tRaw : List Event)
    (ts tmpl : String) (blocks : List ContentBlock)
    (hEnv : validateEnv w.env = none)
    (hGit : w.gitDiff = Except.ok gitOut)
    (hChanged : detectChangedSchemas gitOut = l1 ++ config :: l2)
    (hRaw : uploadRawSchemas w = (tRaw, Except.ok ()))
    (hPrefix : ∀ c ∈ l1, (processSchema w c).2 = Except.ok ())
    (hJson : w.json2ts (dirname config.input) (lastComponent config.input) =
      Except.ok ts)
    (hTmpl : w.readFile config.promptFile = Except.ok tmpl)
    (hClaude : w.claude (composePrompt tmpl ts) = Except.ok blocks)
    (hNoResult : extractResult (firstTextBlock blocks) = none) :
    mainRun w =
      (1, Event.gitQuery :: (tRaw ++ (okTraces w l1 ++
        ([Event.json2tsRun (dirname config.input) (lastComponent config.input),
          Event.claudeCall (composePrompt tmpl ts)] ++
         [Event.consoleError (failMsg config.input extractFailMsg)])))) ∧
      ∀ p c, Event.writeFile p c ∉ (processSchema w config).1 := by
  have hGen : generateTypes w config =
      ([Event.json2tsRun (dirname config.input) (lastComponent config.input),
        Event.claudeCall (composePrompt tmpl ts)],
       Except.error extractFailMsg) := by
    simp only [generateTypes, hJson, hTmpl, hClaude, hNoResult]
  have hPS : processSchema w config =
      ([Event.json2tsRun (dirname config.input) (lastComponent config.input),
        Event.claudeCall (composePrompt tmpl ts)],
       Except.error extractFailMsg) := by
    simp only [processSchema, hGen]
  refine ⟨?_, ?_⟩
  · exact mainRun_aborts_at w gitOut config l1 l2 tRaw _ extractFailMsg
      hEnv hGit hChanged hRaw hPrefix hPS
  · intro p c hmem
    rw [hPS] at hmem
    simp at hmem

/-- C3 witness: a response whose only text block has no result span. -/
def W3 : World where
  env := fun _ => some "x"
  gitDiff := Except.ok "schema/model.json"
  readDir := fun _ => ["model.json"]
  readFile := fun _ => Except.ok "tmpl"
  parseJson := fun _ => Except.error "bad json"
  json2ts := fun _ _ => Except.ok "draft"
  claude := fun _ => Except.ok [{ type := "text", text := "no tags here" }]
  prettierFmt := fun s => Except.ok s
  bundleRes := fun _ _ => Except.ok "bundled"
  r2Send := fun _ _ _ => Except.ok ()

theorem generation_error_aborts_run_witness :
    mainRun W3 =
      (1, Event.gitQuery ::
        ([Event.r2Put "model.json" "tmpl" "application/json"] ++
          (okTraces W3 [] ++
            ([Event.json2tsRun "schema" "model.json",
              Event.claudeCall "tmpl"] ++
             [Event.consoleError (failMsg "schema/model.json" extractFailMsg)])))) ∧
      ∀ p c, Event.writeFile p c ∉ (processSchema W3 modelConfig).1 :=
  generation_error_aborts_run W3 "schema/model.json" modelConfig [] []
    [Event.r2Put "model.json" "tmpl" "application/json"]
    "draft" "tmpl" [{ type := "text", text := "no tags here" }]
    rfl rfl rfl rfl (by simp) rfl rfl rfl rfl

/-! ### Claim C9: the declaration is on disk before bundling starts -/

/-- C9.  Once generation has succeeded, the declaration write to the
local output path of the descriptor is in the trace before every bundling
event; so when bundling fails (first part) or the bundled-artifact upload
fails (second part) the run errors with the declaration file already
overwritten — per-schema processing is not atomic in local file state. -/
theorem declaration_written_before_bundle (w : World) (config : SchemaConfig)
    (tg : List Event) (types : String)
    (hGen : generateTypes w config = (tg, Except.ok types)) :
    (∀ tb e, bundleSchema w config.input = (tb, Except.error e) →
        processSchema w config =
          (tg ++ Event.writeFile config.output types :: tb, Except.error e)) ∧
      (∀ tb bundled e, bundleSchema w config.input = (tb, Except.ok bundled) →
          w.r2Send config.r2Keys.bundled bundled "application/json" =
            Except.error e →
          processSchema w config =
            (tg ++ Event.writeFile config.output types ::
              (tb ++
                [Event.r2Put config.r2Keys.bundled bundled "application/json"]),
             Except.error e)) := by
  constructor
  · intro tb e hB
    simp only [processSchema, hGen, hB]
    simp [List.append_assoc]
  · intro tb bundled e hB hU
    simp only [processSchema, hGen, hB, uploadToR2, hU]
    simp [List.append_assoc]

/-- C9 witness: generation succeeds, then bundling fails on a parse
error; the write event is already in the trace. -/
def W9 : World where
  env := fun _ => some "x"
  gitDiff := Except.ok "schema/model.json"
  readDir := fun _ => ["model.json"]
  readFile := fun _ => Except.ok "tmpl"
  parseJson := fun _ => Except.error "bad json"
  json2ts := fun _ _ => Except.ok "draft"
  claude := fun _ => Except.ok [{ type := "text", text := "x<result>R</result>y" }]
  prettierFmt := fun s => Except.ok s
  bundleRes := fun _ _ => Except.ok "bundled"
  r2Send := fun _ _ _ => Except.ok ()

theorem declaration_written_before_bundle_witness :
    processSchema W9 modelConfig =
      ([Event.json2tsRun "schema" "model.json", Event.claudeCall "tmpl"] ++
        Event.writeFile "types/model.d.ts" "R" :: [],
       Except.error "bad json") :=
  (declaration_written_before_bundle W9 modelConfig
    [Event.json2tsRun "schema" "model.json", Event.claudeCall "tmpl"]
    "R" rfl).1 [] "bad json" rfl

/-! ### Claim C10: extraction reads the first text block, first span -/

/-- Behavior of `listFind` under a left-most-occurrence hypothesis: when the pattern
starts nowhere inside the first `a.length` positions and `s` begins with
it, the first occurrence in `a ++ s` is exactly at `a.length`. -/
theorem listFind_append_of (pat : List Char) :
    ∀ a s : List Char,
      (∀ k < a.length, pat.isPrefixOf ((a ++ s).drop k) = false) →
      pat.isPrefixOf s = true →
      listFind pat (a ++ s) = some a.length := by
  intro a
  induction a with
  | nil =>
    intro s _ hp
    cases s with
    | nil =>
      cases pat with
      | nil => rfl
      | cons c cs => simp [List.isPrefixOf] at hp
    | cons c cs =>
      simp only [List.nil_append, listFind, hp, if_true, List.length_nil]
  | cons c a' ih =>
    intro s h hp
    have h0 := h 0 (by simp)
    simp only [List.cons_append, List.drop_zero] at h0
    have h' : ∀ k < a'.length, pat.isPrefixOf ((a' ++ s).drop k) = false := by
      intro k hk
      have hk1 : k + 1 < (c :: a').length := by
        simpa using Nat.succ_lt_succ hk
      have := h (k + 1) hk1
      simpa [List.cons_append, List.drop_succ_cons] using this
    simp only [List.cons_append, listFind, List.append_eq, h0,
      Bool.false_eq_true, if_false, ih s h' hp, Option.map_some',
      List.length_cons]

/-- The `<result>` extraction on a decomposed text: when no occurrence of
the opening tag starts before `a.length` and no occurrence of the closing
tag starts inside `m`, the capture is exactly `m` — the left-most span,
taken non-greedily. -/
theorem extract_spec (a m z : List Char)
    (h1 : ∀ k < a.length,
      resultOpenTag.isPrefixOf
        ((a ++ (resultOpenTag ++ (m ++ (resultCloseTag ++ z)))).drop k) = false)
    (h2 : ∀ k < m.length,
      resultCloseTag.isPrefixOf ((m ++ (resultCloseTag ++ z)).drop k) = false) :
    extractResultL (a ++ (resultOpenTag ++ (m ++ (resultCloseTag ++ z)))) =
      some m := by
  have hopen :
      resultOpenTag.isPrefixOf
        (resultOpenTag ++ (m ++ (resultCloseTag ++ z))) = true :=
    List.isPrefixOf_iff_prefix.mpr (List.prefix_append _ _)
  have hclose : resultCloseTag.isPrefixOf (resultCloseTag ++ z) = true :=
    List.isPrefixOf_iff_prefix.mpr (List.prefix_append _ _)
  have hfind1 := listFind_append_of resultOpenTag a _ h1 hopen
  have hfind2 := listFind_append_of resultCloseTag m (resultCloseTag ++ z) h2 hclose
  simp only [extractResultL, hfind1]
  have hdrop : (a ++ (resultOpenTag ++ (m ++ (resultCloseTag ++ z)))).drop
      (a.length + resultOpenTag.length) = m ++ (resultCloseTag ++ z) := by
    rw [← List.append_assoc, ← List.length_append, List.drop_left]
  rw [hdrop]
  simp only [hfind2]
  rw [List.take_left]

/-- Behavior of `find?` over the response blocks: everything before the first
text-kind block is skipped, and that block is taken. -/
theorem firstTextBlock_append (pre post : List ContentBlock) (tb : ContentBlock)
    (hPre : ∀ b ∈ pre, (b.type == "text") = false)
    (hT : (tb.type == "text") = true) :
    firstTextBlock (pre ++ tb :: post) = tb.text := by
  induction pre with
  | nil =>
    unfold firstTextBlock
    rw [List.nil_append,
      @List.find?_cons_of_pos ContentBlock (fun b => b.type == "text") tb post hT]
  | cons b pre ih =>
    have hb := hPre b (by simp)
    have hrest : ∀ b' ∈ pre, (b'.type == "text") = false :=
      fun b' h' => hPre b' (by simp [h'])
    unfold firstTextBlock
    rw [List.cons_append,
      @List.find?_cons_of_neg ContentBlock (fun x => x.type == "text") b
        (pre ++ tb :: post) (by simp [hb])]
    exact ih hrest

/-- C10.  The extraction stage reads only the first text-kind content
block (`pre` holds arbitrary non-text blocks, `post` is ignored entirely)
and takes the left-most, non-greedy `<result>` span inside it: the prefix
`a`, the tail `z` — which may itself contain further `<result>` spans —
and every other block are silently discarded, and the captured span is
whitespace-trimmed before being handed to the pretty-printer. -/
theorem extraction_first_block_first_span (w : World) (config : SchemaConfig)
    (ts tmpl : String) (pre post : List ContentBlock) (tb : ContentBlock)
    (a m z : String)
    (hJson : w.json2ts (dirname config.input) (lastComponent config.input) =
      Except.ok ts)
    (hTmpl : w.readFile config.promptFile = Except.ok tmpl)
    (hClaude : w.claude (composePrompt tmpl ts) = Except.ok (pre ++ tb :: post))
    (hPre : ∀ b ∈ pre, (b.type == "text") = false)
    (hType : (tb.type == "text") = true)
    (hText : tb.text = a ++ ("<result>" ++ (m ++ ("</result>" ++ z))))
    (h1 : ∀ k < a.data.length,
      resultOpenTag.isPrefixOf (tb.text.data.drop k) = false)
    (h2 : ∀ k < m.data.length,
      resultCloseTag.isPrefixOf ((m ++ ("</result>" ++ z)).data.drop k) = false) :
    (generateTypes w config).2 = w.prettierFmt (strTrim m) := by
  have hdata : tb.text.data =
      a.data ++ (resultOpenTag ++ (m.data ++ (resultCloseTag ++ z.data))) := by
    simp [hText, String.data_append, resultOpenTag, resultCloseTag]
  have h1' : ∀ k < a.data.length,
      resultOpenTag.isPrefixOf
        ((a.data ++
          (resultOpenTag ++ (m.data ++ (resultCloseTag ++ z.data)))).drop k) =
        false := by
    intro k hk
    have := h1 k hk
    rwa [hdata] at this
  have hmz : (m ++ ("</result>" ++ z)).data =
      m.data ++ (resultCloseTag ++ z.data) := by
    simp [String.data_append, resultCloseTag]
  have h2' : ∀ k < m.data.length,
      resultCloseTag.isPrefixOf
        ((m.data ++ (resultCloseTag ++ z.data)).drop k) = false := by
    intro k hk
    have := h2 k hk
    rwa [hmz] at this
  have hex : extractResult (firstTextBlock (pre ++ tb :: post)) = some m := by
    rw [firstTextBlock_append pre post tb hPre hType]
    unfold extractResult
    rw [hdata, extract_spec a.data m.data z.data h1' h2']
    rfl
  simp only [generateTypes, hJson, hTmpl, hClaude, hex]
  cases hpf : w.prettierFmt (strTrim m) <;> simp [hpf]

/-- C10 witness: a thinking block first, then a text block holding two
result spans; only the first span of the first text block is taken. -/
def W10 : World where
  env := fun _ => some "x"
  gitDiff := Except.ok "schema/model.json"
  readDir := fun _ => ["model.json"]
  readFile := fun _ => Except.ok "tmpl"
  parseJson := fun _ => Except.error "bad json"
  json2ts := fun _ _ => Except.ok "draft"
  claude := fun _ => Except.ok
    [{ type := "thinking", text := "ignore me" },
     { type := "text",
       text := "lead <result> body </result> tail <result>again</result>" }]
  prettierFmt := fun s => Except.ok ("fmt " ++ s)
  bundleRes := fun _ _ => Except.ok "bundled"
  r2Send := fun _ _ _ => Except.ok ()

theorem extraction_first_block_first_span_witness :
    (generateTypes W10 modelConfig).2 = W10.prettierFmt (strTrim " body ") :=
  extraction_first_block_first_span W10 modelConfig "draft" "tmpl"
    [{ type := "thinking", text := "ignore me" }] []
    { type := "text",
      text := "lead <result> body </result> tail <result>again</result>" }
    "lead " " body " " tail <result>again</result>"
    rfl rfl rfl (by decide) rfl (by decide) (by decide) (by decide)
